import Mathlib

/-!
Shallow embedding of the field-extraction engine of `src/docx_parser.py`.

Texts are modelled as `String` (lists of characters).  The class
`DocxParser` captures `text_content` (the newline-joined paragraph text) and
`tables` at construction time and every extractor reads only those, so each
method becomes a pure function of the captured text (`SourceDocument`).

The keyword locator `_find_value_after_keyword` runs, for each keyword in
order, the Python regular expression

    rf"{keyword}\s*[:：]?\s*(.+?)(?:\n|$)"      with re.IGNORECASE

over the text.  All keywords used by the extractors are regex-literal
strings, so the keyword part is modelled as a literal case-insensitive
substring match; Python case folding is modelled by ASCII lowercasing.
Python `\s` is modelled by the ASCII whitespace class (it matches the
newline character, which is essential to the behaviour of this regex).
The greedy/lazy backtracking of `\s*[:：]?\s*(.+?)(?:\n|$)` is modelled
explicitly: each `\s*` tries the longest whitespace run first and backs
off, the optional colon prefers to match, and the lazy group `(.+?)`
captures up to the first newline or the end of the text (`.` never matches
a newline, so lazy and greedy agree once the other pieces are fixed).

Python floats are modelled as rationals; `int()` is truncation toward zero.
-/

def isPySpace (c : Char) : Bool :=
  c == ' ' || c == '\t' || c == '\n' || c == '\r' || c == '\x0b' || c == '\x0c'

def isNumChar (c : Char) : Bool :=
  c.isDigit || c == '.' || c == ','

/-- Case-insensitive literal match of `kw` at the head of `l`; returns the
rest of `l` after the keyword when it matches. -/
def startsWithCI : List Char → List Char → Option (List Char)
  | [], rest => some rest
  | _ :: _, [] => none
  | k :: ks, c :: cs => if c.toLower == k.toLower then startsWithCI ks cs else none

/-- The lazy group `(.+?)(?:\n|$)`: at least one non-newline character,
captured up to the first newline or the end of the text. -/
def captureSeg : List Char → Option (List Char)
  | [] => none
  | c :: cs => if c == '\n' then none else some (c :: cs.takeWhile (fun x => x != '\n'))

/-- Backtracking of a greedy `\s*` directly in front of the capture group:
try dropping `n` characters first, then back off to shorter runs. -/
def tryCapB : Nat → List Char → Option (List Char)
  | 0, l => captureSeg l
  | b + 1, l =>
    match captureSeg (l.drop (b + 1)) with
    | some cap => some cap
    | none => tryCapB b l

def wsRun (l : List Char) : Nat := (l.takeWhile isPySpace).length

/-- `\s*(.+?)(?:\n|$)` with Python backtracking. -/
def wsCap (l : List Char) : Option (List Char) := tryCapB (wsRun l) l

/-- `[:：]?\s*(.+?)(?:\n|$)`: the optional colon prefers to match and backs
off when the remainder of the pattern cannot be completed. -/
def colonCap : List Char → Option (List Char)
  | [] => wsCap []
  | c :: cs =>
    if c == ':' || c == '：' then
      match wsCap cs with
      | some cap => some cap
      | none => wsCap (c :: cs)
    else wsCap (c :: cs)

/-- Backtracking of the first greedy `\s*` (the one before the colon). -/
def tryCapA : Nat → List Char → Option (List Char)
  | 0, l => colonCap l
  | a + 1, l =>
    match colonCap (l.drop (a + 1)) with
    | some cap => some cap
    | none => tryCapA a l

/-- `\s*[:：]?\s*(.+?)(?:\n|$)` matched at the head of `l`. -/
def matchSep (l : List Char) : Option (List Char) := tryCapA (wsRun l) l

/-- The whole pattern `{kw}\s*[:：]?\s*(.+?)(?:\n|$)` matched at the head of
`l`; returns the captured group. -/
def matchKeywordAt (kw l : List Char) : Option (List Char) :=
  match startsWithCI kw l with
  | some rest => matchSep rest
  | none => none

/-- `re.search`: leftmost position at which the pattern matches wins. -/
def searchKeyword (kw : List Char) : List Char → Option (List Char)
  | [] => matchKeywordAt kw []
  | c :: cs =>
    match matchKeywordAt kw (c :: cs) with
    | some cap => some cap
    | none => searchKeyword kw cs

/-- Does `kw` occur anywhere in `l` as a case-insensitive substring? -/
def occursCI (kw : List Char) : List Char → Bool
  | [] => (startsWithCI kw []).isSome
  | c :: cs => (startsWithCI kw (c :: cs)).isSome || occursCI kw cs

def wordsGo (acc : List Char) : List Char → List (List Char)
  | [] => if acc.isEmpty then [] else [acc.reverse]
  | c :: cs =>
    if isPySpace c then
      if acc.isEmpty then wordsGo [] cs else acc.reverse :: wordsGo [] cs
    else wordsGo (c :: acc) cs

def joinWords : List (List Char) → List Char
  | [] => []
  | [w] => w
  | w :: ws => w ++ ' ' :: joinWords ws

/-- Modelled from the spec: `clean_text` lives in `src/utils.py`, which is
not part of the source tree.  Per §4.1 (Text Normalizer) it removes leading
and trailing whitespace and collapses internal whitespace runs to single
spaces; the "stray punctuation removal" the spec mentions is unspecified
and is not modelled. -/
def cleanList (l : List Char) : List Char := joinWords (wordsGo [] l)

def clean_text (s : String) : String := String.mk (cleanList s.toList)

def digitsToNat (l : List Char) : Nat :=
  l.foldl (fun n c => 10 * n + (c.toNat - 48)) 0

/-- Index of the last `.` or `,` in `l`, if any. -/
def lastSepIdx : List Char → Option Nat
  | [] => none
  | c :: cs =>
    match lastSepIdx cs with
    | some i => some (i + 1)
    | none => if c == '.' || c == ',' then some 0 else none

/-- Split a string of digits and separators into integer-part digits and
fractional-part digits, following §4.2: when both `.` and `,` occur, the
one occurring last is the decimal separator; when only one kind occurs, a
group of exactly three trailing digits after it marks thousands grouping
(stripped), otherwise it is the decimal separator. -/
def splitNumber (l : List Char) : List Char × List Char :=
  match lastSepIdx l with
  | none => (l.filter Char.isDigit, [])
  | some i =>
    if (l.contains '.' && l.contains ',') || (l.drop (i + 1)).length != 3 then
      ((l.take i).filter Char.isDigit, (l.drop (i + 1)).filter Char.isDigit)
    else
      (l.filter Char.isDigit, [])

def ratOfParts (p : List Char × List Char) : ℚ :=
  (digitsToNat p.1 : ℚ) + (digitsToNat p.2 : ℚ) / (10 : ℚ) ^ p.2.length

/-- Modelled from the spec: `parse_number` lives in `src/utils.py`, which is
not part of the source tree.  Per §4.2 (Numeric Parser) it strips
non-digit/separator characters, resolves the decimal separator by the
locale heuristic of `splitNumber`, and returns `0` (never an error) when no
digit is present. -/
def parse_number (s : String) : ℚ :=
  if ((s.toList.filter isNumChar).filter Char.isDigit).isEmpty then 0
  else ratOfParts (splitNumber (s.toList.filter isNumChar))

/-- `_find_value_after_keyword` with its default `pattern=None`: no caller
in the source ever passes the optional `pattern` argument, so that branch
is dead code and is not modelled. -/
def find_value_after_keyword : List String → String → Option String
  | [], _ => none
  | k :: ks, text =>
    match searchKeyword k.toList text.toList with
    | some cap => some (clean_text (String.mk cap))
    | none => find_value_after_keyword ks text

/-- First maximal run of characters from the class `[0-9.,]`, as returned
by `re.findall`. -/
def firstDigitRun (l : List Char) : Option (List Char) :=
  match l.dropWhile (fun c => !isNumChar c) with
  | [] => none
  | c :: cs => some (c :: cs.takeWhile isNumChar)

/-- `_find_number_after_keyword`: Python `if value:` is false both for
`None` and for the empty string. -/
def find_number_after_keyword (keywords : List String) (text : String) : ℚ :=
  match find_value_after_keyword keywords text with
  | none => 0
  | some v =>
    if v == "" then 0
    else
      match firstDigitRun v.toList with
      | none => 0
      | some run => parse_number (String.mk run)

/-- Python `x or default` on an optional string: both `None` and `""` fall
back to the default. -/
def pyOrDefault (v : Option String) (d : String) : String :=
  match v with
  | none => d
  | some s => if s == "" then d else s

/-- Python `int()` on a float: truncation toward zero. -/
def pyInt (q : ℚ) : Int := Int.tdiv q.num (q.den : Int)

def name_keywords : List String :=
  ["Họ và tên", "Tên khách hàng", "Khách hàng", "Họ tên"]

def cccd_keywords : List String :=
  ["CCCD", "CMND", "Số CCCD", "Số CMND", "Chứng minh nhân dân"]

def address_keywords : List String :=
  ["Địa chỉ", "Địa chỉ thường trú", "Nơi cư trú", "Chỗ ở"]

def phone_keywords : List String :=
  ["Số điện thoại", "Điện thoại", "SĐT", "Phone"]

def purpose_keywords : List String :=
  ["Mục đích vay", "Mục đích sử dụng vốn", "Mục đích", "Vay để", "Sử dụng vốn để"]

def total_need_keywords : List String :=
  ["Tổng nhu cầu vốn", "Nhu cầu vốn", "Tổng vốn cần", "Tổng mức đầu tư", "Vốn đầu tư"]

def equity_keywords : List String :=
  ["Vốn đối ứng", "Vốn tự có", "Nguồn vốn tự có", "Vốn chủ sở hữu"]

def loan_amount_keywords : List String :=
  ["Số tiền vay", "Vốn vay", "Hạn mức vay", "Dư nợ vay"]

def interest_rate_keywords : List String :=
  ["Lãi suất", "Lãi suất vay", "Lãi suất cho vay", "LS"]

def loan_term_keywords : List String :=
  ["Thời gian vay", "Thời hạn vay", "Kỳ hạn", "Thời hạn"]

def asset_type_keywords : List String :=
  ["Loại tài sản", "Tài sản", "TSBĐ", "Loại TSBĐ"]

def market_value_keywords : List String :=
  ["Giá trị thị trường", "Giá thị trường", "Giá trị", "Trị giá tài sản"]

def asset_address_keywords : List String :=
  ["Địa chỉ tài sản", "Vị trí", "Địa điểm", "Tọa lạc tại"]

def ltv_keywords : List String :=
  ["LTV", "Tỷ lệ cho vay", "Tỷ lệ LTV"]

def legal_docs_keywords : List String :=
  ["Giấy tờ pháp lý", "Pháp lý", "Giấy tờ", "Sổ đỏ"]

def monthly_income_keywords : List String :=
  ["Thu nhập tháng", "Thu nhập hàng tháng", "Doanh thu tháng"]

def monthly_expense_keywords : List String :=
  ["Chi phí tháng", "Chi phí hàng tháng", "Chi phí"]

def other_debt_keywords : List String :=
  ["Nợ khác", "Công nợ khác", "Nghĩa vụ nợ khác"]

structure CustomerInfo where
  name : String
  cccd : String
  address : String
  phone : String
deriving DecidableEq

structure LoanInfo where
  purpose : String
  total_need : ℚ
  equity : ℚ
  loan_amount : ℚ
  equity_ratio : ℚ
  interest_rate : ℚ
  loan_term : Int
  payment_frequency : String
deriving DecidableEq

structure CollateralInfo where
  asset_type : String
  market_value : ℚ
  asset_address : String
  ltv : ℚ
  legal_docs : String
deriving DecidableEq

structure FinancialInfo where
  monthly_income : ℚ
  monthly_expense : ℚ
  other_debt : ℚ
deriving DecidableEq

/-- The immutable text and tables captured by `DocxParser.__init__`; no
extractor reads `tables` in this version of the code. -/
structure SourceDocument where
  fullText : String
  tables : List (List (List String))

structure ParsedDocument where
  customer_info : CustomerInfo
  loan_info : LoanInfo
  collateral_info : CollateralInfo
  financial_info : FinancialInfo
  raw_text : String

def extract_customer_info (text : String) : CustomerInfo :=
  ⟨pyOrDefault (find_value_after_keyword name_keywords text) "",
   pyOrDefault (find_value_after_keyword cccd_keywords text) "",
   pyOrDefault (find_value_after_keyword address_keywords text) "",
   pyOrDefault (find_value_after_keyword phone_keywords text) ""⟩

def extract_loan_info (text : String) : LoanInfo :=
  let purpose := pyOrDefault (find_value_after_keyword purpose_keywords text) "Kinh doanh"
  let total_need := find_number_after_keyword total_need_keywords text
  let equity := find_number_after_keyword equity_keywords text
  let loan_amount0 := find_number_after_keyword loan_amount_keywords text
  let loan_amount := if loan_amount0 = 0 ∧ 0 < total_need then total_need - equity else loan_amount0
  let interest_rate0 := find_number_after_keyword interest_rate_keywords text
  let interest_rate := if interest_rate0 = 0 then (8.5 : ℚ) else interest_rate0
  let loan_term0 := find_number_after_keyword loan_term_keywords text
  let loan_term := if loan_term0 = 0 then (120 : ℚ) else loan_term0
  ⟨purpose, total_need, equity, loan_amount,
   if 0 < total_need then equity / total_need * 100 else 0,
   interest_rate, pyInt loan_term, "Tháng"⟩

def extract_collateral_info (text : String) : CollateralInfo :=
  let ltv0 := find_number_after_keyword ltv_keywords text
  ⟨pyOrDefault (find_value_after_keyword asset_type_keywords text) "Bất động sản",
   find_number_after_keyword market_value_keywords text,
   pyOrDefault (find_value_after_keyword asset_address_keywords text) "",
   if ltv0 = 0 then (70.0 : ℚ) else ltv0,
   pyOrDefault (find_value_after_keyword legal_docs_keywords text)
     "Sổ đỏ/Giấy chứng nhận quyền sử dụng đất"⟩

def extract_financial_info (text : String) : FinancialInfo :=
  ⟨find_number_after_keyword monthly_income_keywords text,
   find_number_after_keyword monthly_expense_keywords text,
   find_number_after_keyword other_debt_keywords text⟩

def parse_full_document (doc : SourceDocument) : ParsedDocument :=
  ⟨extract_customer_info doc.fullText,
   extract_loan_info doc.fullText,
   extract_collateral_info doc.fullText,
   extract_financial_info doc.fullText,
   doc.fullText⟩

/-- Division made explicitly fallible, to express that the engine never
raises: `a / b` in Python raises `ZeroDivisionError` when `b == 0`. -/
def divE (a b : ℚ) : Except String ℚ :=
  if b = 0 then Except.error "ZeroDivisionError" else Except.ok (a / b)

/-- `extract_loan_info` with its one division routed through `divE`; every
other operation in the engine is total (lookups fall back to defaults). -/
def extract_loan_infoE (text : String) : Except String LoanInfo :=
  let purpose := pyOrDefault (find_value_after_keyword purpose_keywords text) "Kinh doanh"
  let total_need := find_number_after_keyword total_need_keywords text
  let equity := find_number_after_keyword equity_keywords text
  let loan_amount0 := find_number_after_keyword loan_amount_keywords text
  let loan_amount := if loan_amount0 = 0 ∧ 0 < total_need then total_need - equity else loan_amount0
  let interest_rate0 := find_number_after_keyword interest_rate_keywords text
  let interest_rate := if interest_rate0 = 0 then (8.5 : ℚ) else interest_rate0
  let loan_term0 := find_number_after_keyword loan_term_keywords text
  let loan_term := if loan_term0 = 0 then (120 : ℚ) else loan_term0
  match (if 0 < total_need then (divE equity total_need).map (fun r => r * 100) else Except.ok 0) with
  | Except.error e => Except.error e
  | Except.ok ratio =>
    Except.ok ⟨purpose, total_need, equity, loan_amount, ratio,
      interest_rate, pyInt loan_term, "Tháng"⟩

def parse_full_documentE (doc : SourceDocument) : Except String ParsedDocument :=
  match extract_loan_infoE doc.fullText with
  | Except.error e => Except.error e
  | Except.ok li =>
    Except.ok ⟨extract_customer_info doc.fullText, li,
      extract_collateral_info doc.fullText,
      extract_financial_info doc.fullText,
      doc.fullText⟩

/-- Concrete document text for the loan-derivation scenario of the spec:
total need 1000000000, equity 200000000, no loan-amount label. -/
def c2text : String := "Tổng nhu cầu vốn: 1000000000\nVốn đối ứng: 200000000"

/-- Concrete document text where the equity exceeds the total need. -/
def c9text : String := "Tổng nhu cầu vốn: 100\nVốn đối ứng: 200"

/-- Concrete document text stating a fractional loan term. -/
def c10text : String := "Thời hạn: 0.5"

theorem matchKeywordAt_nil (kw : List Char) : matchKeywordAt kw [] = none := by
  cases kw <;> rfl

theorem searchKeyword_eq_none_iff (kw l : List Char) :
    searchKeyword kw l = none ↔ ∀ p, matchKeywordAt kw (l.drop p) = none := by
  induction l with
  | nil =>
    constructor
    · intro _ p
      rw [List.drop_nil]
      exact matchKeywordAt_nil kw
    · intro _
      show matchKeywordAt kw [] = none
      exact matchKeywordAt_nil kw
  | cons c cs ih =>
    cases h : matchKeywordAt kw (c :: cs) with
    | some cap =>
      simp only [searchKeyword, h]
      constructor
      · intro hs; cases hs
      · intro hall
        have h0 := hall 0
        rw [List.drop_zero, h] at h0
        cases h0
    | none =>
      simp only [searchKeyword, h]
      rw [ih]
      constructor
      · intro hall p
        cases p with
        | zero => rw [List.drop_zero]; exact h
        | succ p => rw [List.drop_succ_cons]; exact hall p
      · intro hall p
        have hp := hall (p + 1)
        rwa [List.drop_succ_cons] at hp

theorem searchKeyword_eq_some_iff (kw l cap : List Char) :
    searchKeyword kw l = some cap ↔
      ∃ p, matchKeywordAt kw (l.drop p) = some cap ∧
        ∀ q, q < p → matchKeywordAt kw (l.drop q) = none := by
  induction l with
  | nil =>
    constructor
    · intro hs
      have : matchKeywordAt kw [] = some cap := hs
      rw [matchKeywordAt_nil] at this
      cases this
    · rintro ⟨p, hp, -⟩
      rw [List.drop_nil, matchKeywordAt_nil] at hp
      cases hp
  | cons c cs ih =>
    cases h : matchKeywordAt kw (c :: cs) with
    | some c0 =>
      simp only [searchKeyword, h]
      constructor
      · intro hs
        refine ⟨0, ?_, ?_⟩
        · rw [List.drop_zero, h]; exact hs
        · intro q hq; exact absurd hq (Nat.not_lt_zero q)
      · rintro ⟨p, hp, hmin⟩
        cases p with
        | zero => rw [List.drop_zero, h] at hp; exact hp
        | succ p =>
          have h0 := hmin 0 (Nat.succ_pos p)
          rw [List.drop_zero, h] at h0
          cases h0
    | none =>
      simp only [searchKeyword, h]
      rw [ih]
      constructor
      · rintro ⟨p, hp, hmin⟩
        refine ⟨p + 1, ?_, ?_⟩
        · rwa [List.drop_succ_cons]
        · intro q hq
          cases q with
          | zero => rw [List.drop_zero]; exact h
          | succ q =>
            rw [List.drop_succ_cons]
            exact hmin q (Nat.lt_of_succ_lt_succ hq)
      · rintro ⟨p, hp, hmin⟩
        cases p with
        | zero => rw [List.drop_zero, h] at hp; cases hp
        | succ p =>
          rw [List.drop_succ_cons] at hp
          refine ⟨p, hp, ?_⟩
          intro q hq
          have hq1 := hmin (q + 1) (Nat.succ_lt_succ hq)
          rwa [List.drop_succ_cons] at hq1

theorem find_value_eq_none_iff (kws : List String) (text : String) :
    find_value_after_keyword kws text = none ↔
      ∀ k ∈ kws, searchKeyword k.toList text.toList = none := by
  induction kws with
  | nil => simp [find_value_after_keyword]
  | cons k ks ih =>
    cases h : searchKeyword k.toList text.toList with
    | some cap =>
      simp only [find_value_after_keyword, h]
      constructor
      · intro hs; cases hs
      · intro hall
        have hk := hall k (List.mem_cons_self k ks)
        rw [h] at hk; cases hk
    | none =>
      simp only [find_value_after_keyword, h]
      rw [ih]
      constructor
      · intro hall k2 hk2
        rcases List.mem_cons.mp hk2 with h1 | h1
        · subst h1; exact h
        · exact hall k2 h1
      · intro hall k2 hk2
        exact hall k2 (List.mem_cons_of_mem k hk2)

theorem find_value_eq_some_iff (kws : List String) (text : String) (v : String) :
    find_value_after_keyword kws text = some v ↔
      ∃ i, ∃ hi : i < kws.length, ∃ cap,
        searchKeyword (kws.get ⟨i, hi⟩).toList text.toList = some cap ∧
        v = clean_text (String.mk cap) ∧
        ∀ j, ∀ hj : j < kws.length, j < i →
          searchKeyword (kws.get ⟨j, hj⟩).toList text.toList = none := by
  induction kws with
  | nil =>
    constructor
    · intro hs; cases hs
    · rintro ⟨i, hi, -⟩
      exact absurd hi (Nat.not_lt_zero i)
  | cons k ks ih =>
    cases h : searchKeyword k.toList text.toList with
    | some cap =>
      simp only [find_value_after_keyword, h]
      constructor
      · intro hs
        injection hs with hs
        refine ⟨0, Nat.succ_pos ks.length, cap, h, hs.symm, ?_⟩
        intro j hj hj0
        exact absurd hj0 (Nat.not_lt_zero j)
      · rintro ⟨i, hi, cap2, hsk, hv, hmin⟩
        cases i with
        | zero =>
          have hsk2 : searchKeyword k.toList text.toList = some cap2 := hsk
          rw [h] at hsk2
          injection hsk2 with hsk2
          rw [hv, hsk2]
        | succ i =>
          have h0 : searchKeyword k.toList text.toList = none :=
            hmin 0 (Nat.succ_pos ks.length) (Nat.succ_pos i)
          rw [h] at h0; cases h0
    | none =>
      simp only [find_value_after_keyword, h]
      rw [ih]
      constructor
      · rintro ⟨i, hi, cap, hsk, hv, hmin⟩
        refine ⟨i + 1, Nat.succ_lt_succ hi, cap, hsk, hv, ?_⟩
        intro j hj hji
        cases j with
        | zero => exact h
        | succ j => exact hmin j (Nat.lt_of_succ_lt_succ hj) (Nat.lt_of_succ_lt_succ hji)
      · rintro ⟨i, hi, cap, hsk, hv, hmin⟩
        cases i with
        | zero =>
          have hsk2 : searchKeyword k.toList text.toList = some cap := hsk
          rw [h] at hsk2; cases hsk2
        | succ i =>
          refine ⟨i, Nat.lt_of_succ_lt_succ hi, cap, hsk, hv, ?_⟩
          intro j hj hji
          exact hmin (j + 1) (Nat.succ_lt_succ hj) (Nat.succ_lt_succ hji)

/-- C1: the keyword locator tries labels in list order, searches the whole
text for each label (pattern matches at any position, leftmost occurrence
first), returns the normalized capture of the first occurrence of the first
matching label, is unaffected by keywords after the first matching one, and
returns not-found exactly when no label pattern matches anywhere. -/
theorem c1_keyword_priority (kws : List String) (text : String) :
    (find_value_after_keyword kws text = none ↔
      ∀ k ∈ kws, ∀ p, matchKeywordAt k.toList (text.toList.drop p) = none) ∧
    (∀ k ks cap, kws = k :: ks → searchKeyword k.toList text.toList = some cap →
      find_value_after_keyword kws text = some (clean_text (String.mk cap))) ∧
    (∀ v, find_value_after_keyword kws text = some v →
      ∃ i, ∃ hi : i < kws.length, ∃ p cap,
        matchKeywordAt (kws.get ⟨i, hi⟩).toList (text.toList.drop p) = some cap ∧
        v = clean_text (String.mk cap) ∧
        (∀ q, q < p → matchKeywordAt (kws.get ⟨i, hi⟩).toList (text.toList.drop q) = none) ∧
        (∀ j, ∀ hj : j < kws.length, j < i →
          ∀ q, matchKeywordAt (kws.get ⟨j, hj⟩).toList (text.toList.drop q) = none)) := by
  refine ⟨?_, ?_, ?_⟩
  · rw [find_value_eq_none_iff]
    constructor
    · intro hall k hk
      exact (searchKeyword_eq_none_iff _ _).mp (hall k hk)
    · intro hall k hk
      exact (searchKeyword_eq_none_iff _ _).mpr (hall k hk)
  · intro k ks cap hkws hsk
    subst hkws
    simp only [find_value_after_keyword, hsk]
  · intro v hv
    obtain ⟨i, hi, cap, hsk, hval, hmin⟩ := (find_value_eq_some_iff kws text v).mp hv
    obtain ⟨p, hp, hpmin⟩ := (searchKeyword_eq_some_iff _ _ _).mp hsk
    exact ⟨i, hi, p, cap, hp, hval, hpmin,
      fun j hj hji q => (searchKeyword_eq_none_iff _ _).mp (hmin j hj hji) q⟩

theorem c1_witness :
    ∃ i, ∃ hi : i < purpose_keywords.length, ∃ p cap,
      matchKeywordAt (purpose_keywords.get ⟨i, hi⟩).toList
        ("Mục đích: Mua nhà".toList.drop p) = some cap ∧
      "Mua nhà" = clean_text (String.mk cap) ∧
      (∀ q, q < p → matchKeywordAt (purpose_keywords.get ⟨i, hi⟩).toList
        ("Mục đích: Mua nhà".toList.drop q) = none) ∧
      (∀ j, ∀ hj : j < purpose_keywords.length, j < i →
        ∀ q, matchKeywordAt (purpose_keywords.get ⟨j, hj⟩).toList
          ("Mục đích: Mua nhà".toList.drop q) = none) :=
  (c1_keyword_priority purpose_keywords "Mục đích: Mua nhà").2.2 "Mua nhà" (by decide)

theorem dropWhile_head_false (p : Char → Bool) (l : List Char) (d : Char) (ds : List Char)
    (h : l.dropWhile p = d :: ds) : p d = false := by
  induction l with
  | nil => cases h
  | cons c cs ih =>
    rw [List.dropWhile_cons] at h
    split at h
    · exact ih h
    · rename_i hpc
      injection h with h1 _
      subst h1
      simpa using hpc

theorem captureSeg_some (l cap : List Char) (h : captureSeg l = some cap) :
    cap ≠ [] ∧ '\n' ∉ cap ∧
      ∃ post, l = cap ++ post ∧ (post = [] ∨ ∃ ds, post = '\n' :: ds) := by
  cases l with
  | nil => cases h
  | cons c cs =>
    rw [captureSeg] at h
    split at h
    · cases h
    · rename_i hc
      injection h with hcap
      subst hcap
      refine ⟨by simp, ?_, ?_⟩
      · intro hmem
        rcases List.mem_cons.mp hmem with h1 | h1
        · exact hc (by rw [← h1]; simp)
        · have h2 := List.mem_takeWhile_imp h1
          simp at h2
      · refine ⟨cs.dropWhile (fun x => x != '\n'), ?_, ?_⟩
        · rw [List.cons_append, List.takeWhile_append_dropWhile]
        · cases hd : cs.dropWhile (fun x => x != '\n') with
          | nil => exact Or.inl rfl
          | cons d ds =>
            right
            have h3 := dropWhile_head_false _ _ _ _ hd
            simp at h3
            exact ⟨ds, by rw [h3]⟩

theorem tryCapB_some (n : Nat) (l cap : List Char) (h : tryCapB n l = some cap) :
    ∃ b, captureSeg (l.drop b) = some cap := by
  induction n with
  | zero => exact ⟨0, by rwa [List.drop_zero]⟩
  | succ b ih =>
    rw [tryCapB] at h
    cases hm : captureSeg (l.drop (b + 1)) with
    | some cap2 =>
      rw [hm] at h
      injection h with h1
      subst h1
      exact ⟨b + 1, hm⟩
    | none =>
      rw [hm] at h
      exact ih h

theorem wsCap_some (l cap : List Char) (h : wsCap l = some cap) :
    ∃ b, captureSeg (l.drop b) = some cap :=
  tryCapB_some _ _ _ h

theorem colonCap_some (l cap : List Char) (h : colonCap l = some cap) :
    ∃ b, captureSeg (l.drop b) = some cap := by
  cases l with
  | nil => exact wsCap_some _ _ h
  | cons c cs =>
    rw [colonCap] at h
    split at h
    · cases hm : wsCap cs with
      | some cap2 =>
        rw [hm] at h
        injection h with h1
        subst h1
        obtain ⟨b, hb⟩ := wsCap_some _ _ hm
        exact ⟨b + 1, by rwa [List.drop_succ_cons]⟩
      | none =>
        rw [hm] at h
        exact wsCap_some _ _ h
    · exact wsCap_some _ _ h

theorem tryCapA_some (n : Nat) (l cap : List Char) (h : tryCapA n l = some cap) :
    ∃ b, captureSeg (l.drop b) = some cap := by
  induction n with
  | zero => exact colonCap_some _ _ h
  | succ a ih =>
    rw [tryCapA] at h
    cases hm : colonCap (l.drop (a + 1)) with
    | some cap2 =>
      rw [hm] at h
      injection h with h1
      subst h1
      obtain ⟨b, hb⟩ := colonCap_some _ _ hm
      rw [List.drop_drop] at hb
      exact ⟨_, hb⟩
    | none =>
      rw [hm] at h
      exact ih h

theorem matchSep_some (l cap : List Char) (h : matchSep l = some cap) :
    ∃ b, captureSeg (l.drop b) = some cap :=
  tryCapA_some _ _ _ h

theorem startsWithCI_some (kw l rest : List Char) (h : startsWithCI kw l = some rest) :
    ∃ pre, l = pre ++ rest ∧ pre.length = kw.length := by
  induction kw generalizing l with
  | nil =>
    injection h with h1
    subst h1
    exact ⟨[], rfl, rfl⟩
  | cons k ks ih =>
    cases l with
    | nil => cases h
    | cons c cs =>
      rw [startsWithCI] at h
      split at h
      · obtain ⟨pre, hpre, hlen⟩ := ih _ h
        exact ⟨c :: pre, by rw [hpre, List.cons_append], by simp [hlen]⟩
      · cases h

theorem matchKeywordAt_some (kw l cap : List Char) (h : matchKeywordAt kw l = some cap) :
    ∃ d, captureSeg (l.drop d) = some cap := by
  rw [matchKeywordAt] at h
  cases hs : startsWithCI kw l with
  | none => rw [hs] at h; cases h
  | some rest =>
    rw [hs] at h
    obtain ⟨pre, hpre, -⟩ := startsWithCI_some _ _ _ hs
    obtain ⟨b, hb⟩ := matchSep_some _ _ h
    refine ⟨pre.length + b, ?_⟩
    rw [hpre, ← List.drop_drop, List.drop_left]
    exact hb

theorem mem_wordsGo (l : List Char) (w : List Char) (c : Char) :
    ∀ acc, w ∈ wordsGo acc l → c ∈ w → c ∈ acc ∨ c ∈ l := by
  induction l with
  | nil =>
    intro acc hw hc
    rw [wordsGo] at hw
    split at hw
    · cases hw
    · rw [List.mem_singleton] at hw
      subst hw
      left
      exact List.mem_reverse.mp hc
  | cons x xs ih =>
    intro acc hw hc
    rw [wordsGo] at hw
    split at hw
    · split at hw
      · rcases ih [] hw hc with h1 | h1
        · cases h1
        · right; exact List.mem_cons_of_mem _ h1
      · rcases List.mem_cons.mp hw with h1 | h1
        · subst h1
          left
          exact List.mem_reverse.mp hc
        · rcases ih [] h1 hc with h2 | h2
          · cases h2
          · right; exact List.mem_cons_of_mem _ h2
    · rcases ih (x :: acc) hw hc with h1 | h1
      · rcases List.mem_cons.mp h1 with h2 | h2
        · subst h2; right; exact List.mem_cons_self _ _
        · left; exact h2
      · right; exact List.mem_cons_of_mem _ h1

theorem mem_joinWords (ws : List (List Char)) (c : Char) (h : c ∈ joinWords ws) :
    c = ' ' ∨ ∃ w ∈ ws, c ∈ w := by
  induction ws with
  | nil => cases h
  | cons w ws ih =>
    cases ws with
    | nil =>
      right
      exact ⟨w, List.mem_singleton_self w, h⟩
    | cons w2 ws2 =>
      have h2 : c ∈ w ++ ' ' :: joinWords (w2 :: ws2) := h
      rcases List.mem_append.mp h2 with h1 | h1
      · right; exact ⟨w, List.mem_cons_self _ _, h1⟩
      · rcases List.mem_cons.mp h1 with h3 | h3
        · left; exact h3
        · rcases ih h3 with h4 | ⟨w3, hw3, hc3⟩
          · left; exact h4
          · right; exact ⟨w3, List.mem_cons_of_mem _ hw3, hc3⟩

theorem mem_cleanList (l : List Char) (c : Char) (h : c ∈ cleanList l) :
    c = ' ' ∨ c ∈ l := by
  rcases mem_joinWords _ _ h with h1 | ⟨w, hw, hc⟩
  · left; exact h1
  · rcases mem_wordsGo l w c [] hw hc with h2 | h2
    · cases h2
    · right; exact h2

/-- C5 (amended): every value returned by the keyword locator is the
normalized form of a captured segment that lies on a single line of the
text: the capture is nonempty, contains no newline, and runs up to the end
of its line (the next character in the text is a newline, or the text
ends).  Because the regex skips whitespace, including line breaks, between
the label, the optional colon, and the value, that line may come after the
line holding the label occurrence; the returned value itself never contains
a newline.  -/
theorem c5_value_single_line (kws : List String) (text v : String)
    (h : find_value_after_keyword kws text = some v) :
    ∃ cap : List Char, v = clean_text (String.mk cap) ∧ cap ≠ [] ∧
      '\n' ∉ cap ∧ '\n' ∉ v.toList ∧
      ∃ pre post, text.toList = pre ++ cap ++ post ∧
        (post = [] ∨ ∃ ds, post = '\n' :: ds) := by
  obtain ⟨i, hi, cap, hsk, hv, -⟩ := (find_value_eq_some_iff kws text v).mp h
  obtain ⟨p, hp, -⟩ := (searchKeyword_eq_some_iff _ _ _).mp hsk
  obtain ⟨d, hd⟩ := matchKeywordAt_some _ _ _ hp
  rw [List.drop_drop] at hd
  obtain ⟨hne, hnl, post, hsplit, hpost⟩ := captureSeg_some _ _ hd
  refine ⟨cap, hv, hne, hnl, ?_, text.toList.take (p + d), post, ?_, hpost⟩
  · intro hmem
    rw [hv] at hmem
    have hmem2 : '\n' ∈ cleanList cap := hmem
    rcases mem_cleanList _ _ hmem2 with h1 | h1
    · cases h1
    · exact hnl h1
  · conv_lhs => rw [← List.take_append_drop (p + d) text.toList]
    rw [hsplit, List.append_assoc]

theorem c5_witness :
    ∃ cap : List Char, "Mua nhà" = clean_text (String.mk cap) ∧ cap ≠ [] ∧
      '\n' ∉ cap ∧ '\n' ∉ "Mua nhà".toList ∧
      ∃ pre post, "Mục đích:\nMua nhà".toList = pre ++ cap ++ post ∧
        (post = [] ∨ ∃ ds, post = '\n' :: ds) :=
  c5_value_single_line ["Mục đích"] "Mục đích:\nMua nhà" "Mua nhà" (by decide)

theorem c5_counterexample :
    find_value_after_keyword ["Mục đích"] "Mục đích:\nMua nhà" = some "Mua nhà" ∧
    ("Mục đích:\nMua nhà".toList.drop 9).takeWhile (fun c => c != '\n') = [] ∧
    "Mục đích:\nMua nhà".toList.take 9 = "Mục đích:".toList := by
  refine ⟨by decide, by decide, by decide⟩

theorem find_number_of_none (kws : List String) (text : String)
    (h : find_value_after_keyword kws text = none) :
    find_number_after_keyword kws text = 0 := by
  simp only [find_number_after_keyword, h]

theorem find_number_of_no_run (kws : List String) (text v : String)
    (h1 : find_value_after_keyword kws text = some v)
    (h2 : firstDigitRun v.toList = none) :
    find_number_after_keyword kws text = 0 := by
  simp only [find_number_after_keyword, h1]
  split
  · rfl
  · rw [h2]

theorem find_number_of_run (kws : List String) (text v : String) (run : List Char)
    (h1 : find_value_after_keyword kws text = some v)
    (h2 : firstDigitRun v.toList = some run) :
    find_number_after_keyword kws text = parse_number (String.mk run) := by
  have hv : v ≠ "" := by
    intro he
    subst he
    cases h2
  have hv2 : (v == "") = false := beq_eq_false_iff_ne.mpr hv
  simp only [find_number_after_keyword, h1, hv2, h2]
  rfl

theorem firstDigitRun_some (l run : List Char) (h : firstDigitRun l = some run) :
    run ≠ [] ∧ (∀ c ∈ run, isNumChar c = true) ∧
      ∃ pre post, l = pre ++ run ++ post ∧ (∀ c ∈ pre, isNumChar c = false) ∧
        (post = [] ∨ ∃ d ds, post = d :: ds ∧ isNumChar d = false) := by
  rw [firstDigitRun] at h
  cases hd : l.dropWhile (fun c => !isNumChar c) with
  | nil => rw [hd] at h; cases h
  | cons c cs =>
    rw [hd] at h
    injection h with hrun
    subst hrun
    have hc : isNumChar c = true := by
      have h1 := dropWhile_head_false _ _ _ _ hd
      simpa using h1
    refine ⟨by simp, ?_, ?_⟩
    · intro x hx
      rcases List.mem_cons.mp hx with h1 | h1
      · subst h1; exact hc
      · exact List.mem_takeWhile_imp h1
    · refine ⟨l.takeWhile (fun c => !isNumChar c), cs.dropWhile isNumChar, ?_, ?_, ?_⟩
      · have h2 : (c :: cs.takeWhile isNumChar) ++ cs.dropWhile isNumChar = c :: cs := by
          rw [List.cons_append, List.takeWhile_append_dropWhile]
        rw [List.append_assoc, h2, ← hd, List.takeWhile_append_dropWhile]
      · intro x hx
        have h1 := List.mem_takeWhile_imp hx
        simpa using h1
      · cases hp : cs.dropWhile isNumChar with
        | nil => exact Or.inl rfl
        | cons d ds =>
          have h1 := dropWhile_head_false _ _ _ _ hp
          exact Or.inr ⟨d, ds, rfl, h1⟩

/-- C6: the numeric locator calls the text locator, extracts the first
maximal run of characters from the class `[0-9.,]` out of the located
value, parses exactly that run, and returns `0` when the locator finds
nothing or the value holds no such run (the empty located value has no run,
so Python `if value:` falling through to `0` agrees with this reading). -/
theorem c6_number_locator (kws : List String) (text : String) :
    (find_value_after_keyword kws text = none →
      find_number_after_keyword kws text = 0) ∧
    (∀ v : String, find_value_after_keyword kws text = some v →
      firstDigitRun v.toList = none → find_number_after_keyword kws text = 0) ∧
    (∀ (v : String) (run : List Char), find_value_after_keyword kws text = some v →
      firstDigitRun v.toList = some run →
      find_number_after_keyword kws text = parse_number (String.mk run)) ∧
    (∀ (v : String) (run : List Char), firstDigitRun v.toList = some run →
      run ≠ [] ∧ (∀ c ∈ run, isNumChar c = true) ∧
      ∃ pre post, v.toList = pre ++ run ++ post ∧ (∀ c ∈ pre, isNumChar c = false) ∧
        (post = [] ∨ ∃ d ds, post = d :: ds ∧ isNumChar d = false)) := by
  refine ⟨find_number_of_none kws text, ?_, ?_, ?_⟩
  · intro v h1 h2
    exact find_number_of_no_run kws text v h1 h2
  · intro v run h1 h2
    exact find_number_of_run kws text v run h1 h2
  · intro v run h
    exact firstDigitRun_some _ _ h

theorem c6_witness :
    find_number_after_keyword ["Giá trị"] "Giá trị: khoảng 1,2 tỷ" =
      parse_number (String.mk "1,2".toList) :=
  (c6_number_locator ["Giá trị"] "Giá trị: khoảng 1,2 tỷ").2.2.1 "khoảng 1,2 tỷ"
    "1,2".toList (by decide) (by decide)

theorem extract_loan_info_def (text : String) :
    extract_loan_info text =
      ⟨pyOrDefault (find_value_after_keyword purpose_keywords text) "Kinh doanh",
       find_number_after_keyword total_need_keywords text,
       find_number_after_keyword equity_keywords text,
       (if find_number_after_keyword loan_amount_keywords text = 0 ∧
           0 < find_number_after_keyword total_need_keywords text
        then find_number_after_keyword total_need_keywords text -
             find_number_after_keyword equity_keywords text
        else find_number_after_keyword loan_amount_keywords text),
       (if 0 < find_number_after_keyword total_need_keywords text
        then find_number_after_keyword equity_keywords text /
             find_number_after_keyword total_need_keywords text * 100
        else 0),
       (if find_number_after_keyword interest_rate_keywords text = 0 then (8.5 : ℚ)
        else find_number_after_keyword interest_rate_keywords text),
       pyInt (if find_number_after_keyword loan_term_keywords text = 0 then (120 : ℚ)
              else find_number_after_keyword loan_term_keywords text),
       "Tháng"⟩ := rfl

theorem parse_number_eval (s : String) (a b : List Char)
    (h1 : ((s.toList.filter isNumChar).filter Char.isDigit).isEmpty = false)
    (h2 : splitNumber (s.toList.filter isNumChar) = (a, b)) :
    parse_number s = (digitsToNat a : ℚ) + (digitsToNat b : ℚ) / (10 : ℚ) ^ b.length := by
  have hcond : ¬ (((s.toList.filter isNumChar).filter Char.isDigit).isEmpty = true) := by
    rw [h1]; simp
  rw [parse_number, if_neg hcond, h2, ratOfParts]

theorem not_occursCI_matchKeywordAt (kw l : List Char) (h : occursCI kw l = false) :
    ∀ p, matchKeywordAt kw (l.drop p) = none := by
  induction l with
  | nil =>
    intro p
    rw [List.drop_nil, matchKeywordAt]
    rw [occursCI] at h
    cases hs : startsWithCI kw [] with
    | none => rfl
    | some rest => rw [hs] at h; simp at h
  | cons c cs ih =>
    intro p
    rw [occursCI, Bool.or_eq_false_iff] at h
    obtain ⟨h1, h2⟩ := h
    cases p with
    | zero =>
      rw [List.drop_zero, matchKeywordAt]
      cases hs : startsWithCI kw (c :: cs) with
      | none => rfl
      | some rest => rw [hs] at h1; simp at h1
    | succ p =>
      rw [List.drop_succ_cons]
      exact ih h2 p

theorem find_value_none_of_no_occurrence (kws : List String) (text : String)
    (h : ∀ k ∈ kws, occursCI k.toList text.toList = false) :
    find_value_after_keyword kws text = none :=
  (find_value_eq_none_iff kws text).mpr (fun k hk =>
    (searchKeyword_eq_none_iff _ _).mpr (not_occursCI_matchKeywordAt _ _ (h k hk)))

/-- C3: a text holding none of the interest-rate labels and none of the
loan-term labels yields the defaults `interest_rate = 8.5` and
`loan_term = 120`; more generally a zero numeric lookup defaults the rate
to `8.5` and the term to `120`, and the returned term is always the integer
truncation of the looked-up (or defaulted) value. -/
theorem c3_rate_term_defaults :
    (∀ text : String,
      (∀ k ∈ interest_rate_keywords, occursCI k.toList text.toList = false) →
      (∀ k ∈ loan_term_keywords, occursCI k.toList text.toList = false) →
      (extract_loan_info text).interest_rate = 8.5 ∧
        (extract_loan_info text).loan_term = 120) ∧
    (∀ text : String, find_number_after_keyword interest_rate_keywords text = 0 →
      (extract_loan_info text).interest_rate = 8.5) ∧
    (∀ text : String, find_number_after_keyword loan_term_keywords text = 0 →
      (extract_loan_info text).loan_term = 120) ∧
    (∀ text : String, (extract_loan_info text).loan_term =
      pyInt (if find_number_after_keyword loan_term_keywords text = 0 then (120 : ℚ)
             else find_number_after_keyword loan_term_keywords text)) := by
  have hrate : ∀ text : String,
      find_number_after_keyword interest_rate_keywords text = 0 →
      (extract_loan_info text).interest_rate = 8.5 := by
    intro text h
    rw [extract_loan_info_def]
    simp [h]
  have hterm : ∀ text : String,
      find_number_after_keyword loan_term_keywords text = 0 →
      (extract_loan_info text).loan_term = 120 := by
    intro text h
    rw [extract_loan_info_def]
    simp only [h]
    norm_num [pyInt]
  refine ⟨?_, hrate, hterm, ?_⟩
  · intro text hir hlt
    exact ⟨hrate text (find_number_of_none _ _ (find_value_none_of_no_occurrence _ _ hir)),
      hterm text (find_number_of_none _ _ (find_value_none_of_no_occurrence _ _ hlt))⟩
  · intro text
    rfl

theorem c3_witness :
    (extract_loan_info "").interest_rate = 8.5 ∧ (extract_loan_info "").loan_term = 120 :=
  c3_rate_term_defaults.1 "" (by decide) (by decide)

theorem extract_loan_infoE_ok (text : String) :
    extract_loan_infoE text = Except.ok (extract_loan_info text) := by
  by_cases h : 0 < find_number_after_keyword total_need_keywords text
  · simp only [extract_loan_infoE, extract_loan_info, divE, Except.map, if_pos h,
      if_neg h.ne']
  · simp only [extract_loan_infoE, extract_loan_info, divE, Except.map, if_neg h]

/-- C7: the engine never raises on missing or malformed data: with the one
division in `extract_loan_info` routed through explicitly fallible `divE`,
the full-document assembly always returns `Except.ok` of the total result;
absence surfaces only as defaults (empty string, zero, or a constant). -/
theorem c7_engine_never_raises (doc : SourceDocument) :
    parse_full_documentE doc = Except.ok (parse_full_document doc) := by
  rw [parse_full_documentE, extract_loan_infoE_ok]
  rfl

/-- C4 (amended): the empty SourceDocument (empty text, no tables) parses
to the all-defaults record: the customer text fields and the asset address
are empty strings, while the text fields with documented non-empty defaults
(purpose, asset type, legal documents, payment frequency) equal those
defaults; every numeric field equals its documented default (zero, 8.5 for
the interest rate, 120 for the term, 70.0 for the LTV) and the raw text is
empty.  The claim as stated, with every text field empty, fails: see the
counterexample on the purpose field. -/
theorem c4_empty_document :
    parse_full_document ⟨"", []⟩ =
      ⟨⟨"", "", "", ""⟩,
       ⟨"Kinh doanh", 0, 0, 0, 0, 8.5, 120, "Tháng"⟩,
       ⟨"Bất động sản", 0, "", 70.0, "Sổ đỏ/Giấy chứng nhận quyền sử dụng đất"⟩,
       ⟨0, 0, 0⟩, ""⟩ := rfl

theorem c4_counterexample :
    (parse_full_document ⟨"", []⟩).loan_info.purpose = "Kinh doanh" ∧
    "Kinh doanh" ≠ "" ∧
    (parse_full_document ⟨"", []⟩).collateral_info.legal_docs =
      "Sổ đỏ/Giấy chứng nhận quyền sử dụng đất" ∧
    (parse_full_document ⟨"", []⟩).loan_info.payment_frequency = "Tháng" :=
  ⟨rfl, by decide, rfl, rfl⟩

theorem fn_total_c2 : find_number_after_keyword total_need_keywords c2text = 1000000000 := by
  rw [find_number_of_run total_need_keywords c2text "1000000000" "1000000000".toList
    (by decide) (by decide)]
  rw [parse_number_eval (String.mk "1000000000".toList) "1000000000".toList []
    (by decide) (by decide)]
  rw [show digitsToNat "1000000000".toList = 1000000000 from by decide,
    show digitsToNat [] = 0 from rfl]
  norm_num

theorem fn_equity_c2 : find_number_after_keyword equity_keywords c2text = 200000000 := by
  rw [find_number_of_run equity_keywords c2text "200000000" "200000000".toList
    (by decide) (by decide)]
  rw [parse_number_eval (String.mk "200000000".toList) "200000000".toList []
    (by decide) (by decide)]
  rw [show digitsToNat "200000000".toList = 200000000 from by decide,
    show digitsToNat [] = 0 from rfl]
  norm_num

theorem fn_loan0_c2 : find_number_after_keyword loan_amount_keywords c2text = 0 :=
  find_number_of_none _ _ (by decide)

/-- C2: when the loan-amount lookup is exactly `0` and the total-need
lookup is positive, the loan amount is derived as `total_need - equity` and
the equity ratio as `equity / total_need * 100` (and `0` when the total
need is not positive); on the concrete document with
`total_need = 1000000000`, `equity = 200000000` and no loan-amount label,
the results are `800000000` and `20`. -/
theorem c2_loan_amount_derivation :
    (∀ text : String,
      find_number_after_keyword loan_amount_keywords text = 0 →
      0 < find_number_after_keyword total_need_keywords text →
      (extract_loan_info text).loan_amount =
        find_number_after_keyword total_need_keywords text -
          find_number_after_keyword equity_keywords text ∧
      LoanInfo.equity_ratio (extract_loan_info text) =
        find_number_after_keyword equity_keywords text /
          find_number_after_keyword total_need_keywords text * 100) ∧
    (∀ text : String, ¬ 0 < find_number_after_keyword total_need_keywords text →
      LoanInfo.equity_ratio (extract_loan_info text) = 0) ∧
    ((extract_loan_info c2text).loan_amount = 800000000 ∧
      LoanInfo.equity_ratio (extract_loan_info c2text) = 20) := by
  have hgen : ∀ text : String,
      find_number_after_keyword loan_amount_keywords text = 0 →
      0 < find_number_after_keyword total_need_keywords text →
      (extract_loan_info text).loan_amount =
        find_number_after_keyword total_need_keywords text -
          find_number_after_keyword equity_keywords text ∧
      LoanInfo.equity_ratio (extract_loan_info text) =
        find_number_after_keyword equity_keywords text /
          find_number_after_keyword total_need_keywords text * 100 := by
    intro text h0 h1
    rw [extract_loan_info_def]
    constructor
    · show (if _ ∧ _ then _ else _) = _
      rw [if_pos ⟨h0, h1⟩]
    · show (if _ then _ else _) = _
      rw [if_pos h1]
  refine ⟨hgen, ?_, ?_⟩
  · intro text h
    rw [extract_loan_info_def]
    show (if _ then _ else _) = _
    rw [if_neg h]
  · obtain ⟨ha, hr⟩ := hgen c2text fn_loan0_c2 (by rw [fn_total_c2]; norm_num)
    rw [fn_total_c2, fn_equity_c2] at ha hr
    constructor
    · rw [ha]; norm_num
    · rw [hr]; norm_num

theorem c2_witness :
    (extract_loan_info c2text).loan_amount =
      find_number_after_keyword total_need_keywords c2text -
        find_number_after_keyword equity_keywords c2text ∧
    LoanInfo.equity_ratio (extract_loan_info c2text) =
      find_number_after_keyword equity_keywords c2text /
        find_number_after_keyword total_need_keywords c2text * 100 :=
  c2_loan_amount_derivation.1 c2text fn_loan0_c2 (by rw [fn_total_c2]; norm_num)

theorem fn_total_c9 : find_number_after_keyword total_need_keywords c9text = 100 := by
  rw [find_number_of_run total_need_keywords c9text "100" "100".toList
    (by decide) (by decide)]
  rw [parse_number_eval (String.mk "100".toList) "100".toList [] (by decide) (by decide)]
  rw [show digitsToNat "100".toList = 100 from by decide, show digitsToNat [] = 0 from rfl]
  norm_num

theorem fn_equity_c9 : find_number_after_keyword equity_keywords c9text = 200 := by
  rw [find_number_of_run equity_keywords c9text "200" "200".toList
    (by decide) (by decide)]
  rw [parse_number_eval (String.mk "200".toList) "200".toList [] (by decide) (by decide)]
  rw [show digitsToNat "200".toList = 200 from by decide, show digitsToNat [] = 0 from rfl]
  norm_num

theorem fn_loan0_c9 : find_number_after_keyword loan_amount_keywords c9text = 0 :=
  find_number_of_none _ _ (by decide)

/-- C9: the derivation `loan_amount = total_need - equity` is not clamped,
so whenever the loan-amount lookup is `0`, the total need is positive and
the equity exceeds it, the returned loan amount is strictly negative; the
concrete document with `total_need = 100` and `equity = 200` returns
`loan_amount = -100 < 0`. -/
theorem c9_negative_loan_amount :
    (∀ text : String,
      find_number_after_keyword loan_amount_keywords text = 0 →
      0 < find_number_after_keyword total_need_keywords text →
      find_number_after_keyword total_need_keywords text <
        find_number_after_keyword equity_keywords text →
      (extract_loan_info text).loan_amount < 0) ∧
    (extract_loan_info c9text).loan_amount < 0 := by
  have hgen : ∀ text : String,
      find_number_after_keyword loan_amount_keywords text = 0 →
      0 < find_number_after_keyword total_need_keywords text →
      find_number_after_keyword total_need_keywords text <
        find_number_after_keyword equity_keywords text →
      (extract_loan_info text).loan_amount < 0 := by
    intro text h0 h1 h2
    rw [extract_loan_info_def]
    show (if _ ∧ _ then _ else _) < (0 : ℚ)
    rw [if_pos ⟨h0, h1⟩]
    exact sub_neg.mpr h2
  refine ⟨hgen, ?_⟩
  refine hgen c9text fn_loan0_c9 ?_ ?_
  · rw [fn_total_c9]; norm_num
  · rw [fn_total_c9, fn_equity_c9]; norm_num

theorem c9_witness : (extract_loan_info c9text).loan_amount < 0 :=
  c9_negative_loan_amount.1 c9text fn_loan0_c9
    (by rw [fn_total_c9]; norm_num)
    (by rw [fn_total_c9, fn_equity_c9]; norm_num)

theorem int_tdiv_eq_zero (a b : Int) (h0 : 0 ≤ a) (h1 : a < b) : Int.tdiv a b = 0 := by
  obtain ⟨m, rfl⟩ := Int.eq_ofNat_of_zero_le h0
  have hb : 0 < b := lt_of_le_of_lt h0 h1
  obtain ⟨n, rfl⟩ := Int.eq_ofNat_of_zero_le (le_of_lt hb)
  show Int.ofNat (m / n) = 0
  rw [Nat.div_eq_of_lt (Int.ofNat_lt.mp h1)]
  rfl

theorem pyInt_eq_zero (q : ℚ) (h0 : 0 < q) (h1 : q < 1) : pyInt q = 0 := by
  apply int_tdiv_eq_zero
  · exact le_of_lt (Rat.num_pos.mpr h0)
  · exact Rat.lt_one_iff_num_lt_denom.mp h1

theorem fn_term_c10 : find_number_after_keyword loan_term_keywords c10text = 1 / 2 := by
  rw [find_number_of_run loan_term_keywords c10text "0.5" "0.5".toList
    (by decide) (by decide)]
  rw [parse_number_eval (String.mk "0.5".toList) ['0'] ['5'] (by decide) (by decide)]
  rw [show digitsToNat ['0'] = 0 from by decide, show digitsToNat ['5'] = 5 from by decide]
  norm_num

/-- C10: a loan-term lookup strictly between `0` and `1` escapes the `120`
default (the value is nonzero) and the final integer truncation sends it to
`0`; the concrete document stating a term of `0.5` yields `loan_term = 0`. -/
theorem c10_fractional_term :
    (∀ text : String,
      0 < find_number_after_keyword loan_term_keywords text →
      find_number_after_keyword loan_term_keywords text < 1 →
      (extract_loan_info text).loan_term = 0) ∧
    ((extract_loan_info c10text).loan_term = 0 ∧
      find_number_after_keyword loan_term_keywords c10text = 1 / 2) := by
  have hgen : ∀ text : String,
      0 < find_number_after_keyword loan_term_keywords text →
      find_number_after_keyword loan_term_keywords text < 1 →
      (extract_loan_info text).loan_term = 0 := by
    intro text h1 h2
    rw [extract_loan_info_def]
    show pyInt (if _ then _ else _) = 0
    rw [if_neg (ne_of_gt h1)]
    exact pyInt_eq_zero _ h1 h2
  refine ⟨hgen, ?_, fn_term_c10⟩
  refine hgen c10text ?_ ?_
  · rw [fn_term_c10]; norm_num
  · rw [fn_term_c10]; norm_num

theorem c10_witness : (extract_loan_info c10text).loan_term = 0 :=
  c10_fractional_term.1 c10text (by rw [fn_term_c10]; norm_num)
    (by rw [fn_term_c10]; norm_num)

theorem pyOrDefault_some_eq (s d : String) (h : s ≠ "") : pyOrDefault (some s) d = s := by
  have hb : ¬ ((s == "") = true) := by simp [h]
  rw [pyOrDefault, if_neg hb]

/-- C8: every record built by the four extractors has all of its fields
populated: text fields fall back to their domain default (empty string or a
named constant) when the locator finds nothing and carry the located value
when it is nonempty, numeric fields are exactly the numeric lookup (or its
documented default or derivation), and the assembler returns exactly the
four field groups plus the raw text, for any table list. -/
theorem c8_all_fields_populated (text : String) :
    ((find_value_after_keyword name_keywords text = none →
        (extract_customer_info text).name = "") ∧
      (∀ v : String, find_value_after_keyword name_keywords text = some v → v ≠ "" →
        (extract_customer_info text).name = v)) ∧
    ((find_value_after_keyword cccd_keywords text = none →
        (extract_customer_info text).cccd = "") ∧
      (∀ v : String, find_value_after_keyword cccd_keywords text = some v → v ≠ "" →
        (extract_customer_info text).cccd = v)) ∧
    ((find_value_after_keyword address_keywords text = none →
        (extract_customer_info text).address = "") ∧
      (∀ v : String, find_value_after_keyword address_keywords text = some v → v ≠ "" →
        (extract_customer_info text).address = v)) ∧
    ((find_value_after_keyword phone_keywords text = none →
        (extract_customer_info text).phone = "") ∧
      (∀ v : String, find_value_after_keyword phone_keywords text = some v → v ≠ "" →
        (extract_customer_info text).phone = v)) ∧
    ((find_value_after_keyword purpose_keywords text = none →
        (extract_loan_info text).purpose = "Kinh doanh") ∧
      (∀ v : String, find_value_after_keyword purpose_keywords text = some v → v ≠ "" →
        (extract_loan_info text).purpose = v)) ∧
    ((extract_loan_info text).total_need =
        find_number_after_keyword total_need_keywords text) ∧
    ((extract_loan_info text).equity = find_number_after_keyword equity_keywords text) ∧
    ((extract_loan_info text).payment_frequency = "Tháng") ∧
    (find_value_after_keyword asset_type_keywords text = none →
        (extract_collateral_info text).asset_type = "Bất động sản") ∧
    ((extract_collateral_info text).market_value =
        find_number_after_keyword market_value_keywords text) ∧
    (find_value_after_keyword asset_address_keywords text = none →
        (extract_collateral_info text).asset_address = "") ∧
    (find_number_after_keyword ltv_keywords text = 0 →
        (extract_collateral_info text).ltv = 70.0) ∧
    (find_value_after_keyword legal_docs_keywords text = none →
        (extract_collateral_info text).legal_docs =
          "Sổ đỏ/Giấy chứng nhận quyền sử dụng đất") ∧
    ((extract_financial_info text).monthly_income =
        find_number_after_keyword monthly_income_keywords text) ∧
    ((extract_financial_info text).monthly_expense =
        find_number_after_keyword monthly_expense_keywords text) ∧
    ((extract_financial_info text).other_debt =
        find_number_after_keyword other_debt_keywords text) ∧
    (∀ tables : List (List (List String)), parse_full_document ⟨text, tables⟩ =
      ⟨extract_customer_info text, extract_loan_info text,
        extract_collateral_info text, extract_financial_info text, text⟩) := by
  refine ⟨⟨?_, ?_⟩, ⟨?_, ?_⟩, ⟨?_, ?_⟩, ⟨?_, ?_⟩, ⟨?_, ?_⟩,
    rfl, rfl, rfl, ?_, rfl, ?_, ?_, ?_, rfl, rfl, rfl, fun _ => rfl⟩
  · intro h
    show pyOrDefault (find_value_after_keyword name_keywords text) "" = ""
    rw [h]; rfl
  · intro v h hv
    show pyOrDefault (find_value_after_keyword name_keywords text) "" = v
    rw [h]
    exact pyOrDefault_some_eq v "" hv
  · intro h
    show pyOrDefault (find_value_after_keyword cccd_keywords text) "" = ""
    rw [h]; rfl
  · intro v h hv
    show pyOrDefault (find_value_after_keyword cccd_keywords text) "" = v
    rw [h]
    exact pyOrDefault_some_eq v "" hv
  · intro h
    show pyOrDefault (find_value_after_keyword address_keywords text) "" = ""
    rw [h]; rfl
  · intro v h hv
    show pyOrDefault (find_value_after_keyword address_keywords text) "" = v
    rw [h]
    exact pyOrDefault_some_eq v "" hv
  · intro h
    show pyOrDefault (find_value_after_keyword phone_keywords text) "" = ""
    rw [h]; rfl
  · intro v h hv
    show pyOrDefault (find_value_after_keyword phone_keywords text) "" = v
    rw [h]
    exact pyOrDefault_some_eq v "" hv
  · intro h
    show pyOrDefault (find_value_after_keyword purpose_keywords text) "Kinh doanh" =
      "Kinh doanh"
    rw [h]; rfl
  · intro v h hv
    show pyOrDefault (find_value_after_keyword purpose_keywords text) "Kinh doanh" = v
    rw [h]
    exact pyOrDefault_some_eq v "Kinh doanh" hv
  · intro h
    show pyOrDefault (find_value_after_keyword asset_type_keywords text) "Bất động sản" =
      "Bất động sản"
    rw [h]; rfl
  · intro h
    show pyOrDefault (find_value_after_keyword asset_address_keywords text) "" = ""
    rw [h]; rfl
  · intro h
    show (if find_number_after_keyword ltv_keywords text = 0 then (70.0 : ℚ)
      else find_number_after_keyword ltv_keywords text) = 70.0
    rw [if_pos h]
  · intro h
    show pyOrDefault (find_value_after_keyword legal_docs_keywords text)
      "Sổ đỏ/Giấy chứng nhận quyền sử dụng đất" = "Sổ đỏ/Giấy chứng nhận quyền sử dụng đất"
    rw [h]; rfl

theorem c8_witness :
    (extract_customer_info "x").name = "" ∧
    (extract_loan_info "x").purpose = "Kinh doanh" ∧
    (extract_collateral_info "x").ltv = 70.0 :=
  ⟨(c8_all_fields_populated "x").1.1 (by decide),
   (c8_all_fields_populated "x").2.2.2.2.1.1 (by decide),
   (c8_all_fields_populated "x").2.2.2.2.2.2.2.2.2.2.2.1
     (find_number_of_none _ _ (by decide))⟩
